import Mathlib

/-!
Verification of `fix_project.py`, a line-oriented patcher that injects three
Swift-package product dependencies (MLX, MLXLLM, MLXLMCommon) into an Xcode
`project.pbxproj` manifest.  The script reads the file as a list of lines,
aborts if a sentinel identifier is already present, performs one structural
insertion pass and one section-appending pass, and writes the result back.

The embedding below mirrors the source line by line: Python's `pat in line`
substring test becomes `containsSub`, the first `for` loop becomes `pass1`
(with the two boolean flags threaded explicitly), the second loop becomes
`pass2`, and the whole run (guard, passes, write, status line) becomes
`runProgram`.
-/

set_option autoImplicit false
set_option maxRecDepth 100000

namespace FixProject

/-- Boolean prefix test on character lists. -/
def isPrefixL : List Char → List Char → Bool
  | [], _ => true
  | _ :: _, [] => false
  | a :: pa, b :: pb => a == b && isPrefixL pa pb

/-- Boolean substring-containment test on character lists
(Python's `pat in s`). -/
def containsL (pat : List Char) : List Char → Bool
  | [] => isPrefixL pat []
  | c :: s => isPrefixL pat (c :: s) || containsL pat s

/-- Python's `pat in s` for strings. -/
def containsSub (s pat : String) : Bool :=
  containsL pat.toList s.toList

/-- Number of positions of `s` at which `pat` occurs (occurrences may
overlap); used to count occurrences of an identifier in a line. -/
def occsFromL (pat : List Char) : List Char → Nat
  | [] => if isPrefixL pat [] then 1 else 0
  | c :: s => (if isPrefixL pat (c :: s) then 1 else 0) + occsFromL pat s

/-- Occurrence count of `pat` in the single line `s`. -/
def occs (pat s : String) : Nat :=
  occsFromL pat.toList s.toList

/-- Total occurrence count of `pat` over a list of lines.  For lines produced
by `readlines` (each internal line ends in a newline, and identifiers contain
no newline) this equals the occurrence count in the joined document. -/
def occsTotal (pat : String) (lines : List String) : Nat :=
  (lines.map (occs pat)).sum

/-! ### Identifier constants (verbatim from the script) -/

def frameworks_phase_id : String := "A1000020282A0001"
def native_target_id : String := "A1000040282A0001"

def mlx_pkg_id : String := "96B796092F00EDE300F7DF93"
def mlx_lm_pkg_id : String := "96B7960A2F00EFF500F7DF93"

def mlx_dep_id : String := "96B7960B2F00F00100F7DF93"
def mlx_llm_dep_id : String := "96B7960C2F00F00200F7DF93"
def mlx_common_dep_id : String := "96B7960F2F00F00500F7DF93"

def mlx_build_id : String := "96B7960D2F00F00300F7DF93"
def mlx_llm_build_id : String := "96B7960E2F00F00400F7DF93"
def mlx_common_build_id : String := "96B796102F00F00600F7DF93"

/-! ### The six marker substrings the script matches against -/

def beginBuildFileMarker : String := "/* Begin PBXBuildFile section */"
def fwBeginMarker : String := frameworks_phase_id ++ " /* Frameworks */ = \x7b"
def filesMarker : String := "files = ("
def ntBeginMarker : String := native_target_id ++ " /* iMessageWrapped */ = \x7b"
def productTypeMarker : String := "productType = "
def beginProjectMarker : String := "/* Begin PBXProject section */"

/-! ### The synthesized lines (verbatim expansions of the f-strings) -/

/-- Lines appended after the `PBXBuildFile` section marker. -/
def buildFileLines : List String :=
  [ "\t\t" ++ mlx_build_id ++ " /* MLX in Frameworks */ = \x7bisa = PBXBuildFile; productRef = " ++ mlx_dep_id ++ " /* MLX */; \x7d;\n"
  , "\t\t" ++ mlx_llm_build_id ++ " /* MLXLLM in Frameworks */ = \x7bisa = PBXBuildFile; productRef = " ++ mlx_llm_dep_id ++ " /* MLXLLM */; \x7d;\n"
  , "\t\t" ++ mlx_common_build_id ++ " /* MLXLMCommon in Frameworks */ = \x7bisa = PBXBuildFile; productRef = " ++ mlx_common_dep_id ++ " /* MLXLMCommon */; \x7d;\n" ]

/-- Lines appended after the frameworks phase's `files = (` line. -/
def frameworksRefLines : List String :=
  [ "\t\t\t\t" ++ mlx_build_id ++ " /* MLX in Frameworks */,\n"
  , "\t\t\t\t" ++ mlx_llm_build_id ++ " /* MLXLLM in Frameworks */,\n"
  , "\t\t\t\t" ++ mlx_common_build_id ++ " /* MLXLMCommon in Frameworks */,\n" ]

/-- The `packageProductDependencies` sub-block appended after the native
target's `productType = ` line. -/
def depBlockLines : List String :=
  [ "\t\t\tpackageProductDependencies = (\n"
  , "\t\t\t\t" ++ mlx_dep_id ++ " /* MLX */,\n"
  , "\t\t\t\t" ++ mlx_llm_dep_id ++ " /* MLXLLM */,\n"
  , "\t\t\t\t" ++ mlx_common_dep_id ++ " /* MLXLMCommon */,\n"
  , "\t\t\t);\n" ]

/-- The new `XCSwiftPackageProductDependency` section inserted before the
`PBXProject` section marker (the final entry carries the section-end marker
line plus the blank separator line, exactly as appended by the script). -/
def depSectionLines : List String :=
  [ "/* Begin XCSwiftPackageProductDependency section */\n"
  , "\t\t" ++ mlx_dep_id ++ " /* MLX */ = \x7b\n"
  , "\t\t\tisa = XCSwiftPackageProductDependency;\n"
  , "\t\t\tpackage = " ++ mlx_pkg_id ++ " /* XCRemoteSwiftPackageReference \"mlx-swift\" */;\n"
  , "\t\t\tproductName = MLX;\n"
  , "\t\t\x7d;\n"
  , "\t\t" ++ mlx_llm_dep_id ++ " /* MLXLLM */ = \x7b\n"
  , "\t\t\tisa = XCSwiftPackageProductDependency;\n"
  , "\t\t\tpackage = " ++ mlx_lm_pkg_id ++ " /* XCRemoteSwiftPackageReference \"mlx-swift-lm\" */;\n"
  , "\t\t\tproductName = MLXLLM;\n"
  , "\t\t\x7d;\n"
  , "\t\t" ++ mlx_common_dep_id ++ " /* MLXLMCommon */ = \x7b\n"
  , "\t\t\tisa = XCSwiftPackageProductDependency;\n"
  , "\t\t\tpackage = " ++ mlx_lm_pkg_id ++ " /* XCRemoteSwiftPackageReference \"mlx-swift-lm\" */;\n"
  , "\t\t\tproductName = MLXLMCommon;\n"
  , "\t\t\x7d;\n"
  , "/* End XCSwiftPackageProductDependency section */\n\n" ]

/-! ### The two passes -/

/-- One iteration of the first loop body: given the two flags and the current
line, return the lines emitted for this iteration together with the updated
flags.  The order of the tests matches the script: build-file insertion
(unguarded), frameworks-phase arming then firing, native-target arming then
firing. -/
def step1 (fw nt : Bool) (l : String) : List String × Bool × Bool :=
  let ins1 := if containsSub l beginBuildFileMarker then buildFileLines else []
  let fw1 := if containsSub l fwBeginMarker then true else fw
  let fireFw := fw1 && containsSub l filesMarker
  let ins2 := if fireFw then frameworksRefLines else []
  let fw2 := if fireFw then false else fw1
  let nt1 := if containsSub l ntBeginMarker then true else nt
  let fireNt := nt1 && containsSub l productTypeMarker
  let ins3 := if fireNt then depBlockLines else []
  let nt2 := if fireNt then false else nt1
  (l :: (ins1 ++ ins2 ++ ins3), fw2, nt2)

/-- The first loop (`for line in lines: new_lines.append(line); ...`),
with `in_frameworks_phase` and `in_native_target` threaded explicitly. -/
def pass1 : Bool → Bool → List String → List String
  | _, _, [] => []
  | fw, nt, l :: rest =>
    (step1 fw nt l).1 ++ pass1 (step1 fw nt l).2.1 (step1 fw nt l).2.2 rest

/-- Final flag state after the first loop has consumed a list of lines. -/
def st1 : Bool → Bool → List String → Bool × Bool
  | fw, nt, [] => (fw, nt)
  | fw, nt, l :: rest => st1 (step1 fw nt l).2.1 (step1 fw nt l).2.2 rest

/-- The second loop (`for line in new_lines: ...`), with `inserted_deps`
threaded explicitly. -/
def pass2 : Bool → List String → List String
  | _, [] => []
  | ins, l :: rest =>
    if containsSub l beginProjectMarker && !ins then
      depSectionLines ++ l :: pass2 true rest
    else
      l :: pass2 ins rest

/-- The full mutation: both passes with all flags initially cleared. -/
def patch (lines : List String) : List String :=
  pass2 false (pass1 false false lines)

/-- Observable outcome of one run of the script on the file's lines:
the on-disk content afterwards, whether a write happened, the printed
status line, and the process exit code. -/
structure RunResult where
  fileContent : List String
  wrote : Bool
  status : String
  exitCode : Nat
  deriving Repr, DecidableEq

/-- The whole script: the idempotency guard checks the joined content for
`mlx_dep_id`; if it trips the file is untouched and the script exits 0 with
"Project already patched.", otherwise both passes run and the expanded lines
are written back. -/
def runProgram (lines : List String) : RunResult :=
  if containsSub (String.join lines) mlx_dep_id then
    ⟨lines, false, "Project already patched.", 0⟩
  else
    ⟨patch lines, true, "Project patched successfully.", 0⟩

/-! ### Example lines used as concrete inputs -/

def bfLineEx : String := "/* Begin PBXBuildFile section */\n"
def fwLineEx : String := "\t\t" ++ fwBeginMarker ++ "\n"
def filesLineEx : String := "\t\t\tfiles = (\n"
def ntLineEx : String := "\t\t" ++ ntBeginMarker ++ "\n"
def ptLineEx : String := "\t\t\tproductType = \"com.apple.product-type.application\";\n"
def prjLineEx : String := "/* Begin PBXProject section */\n"
def closeLineEx : String := "\t\t\x7d;\n"

/-- A minimal well-formed manifest: all four markers exactly once, in order,
no sentinel. -/
def cexWf : List String :=
  [bfLineEx, fwLineEx, filesLineEx, ntLineEx, ptLineEx, prjLineEx]

/-- A manifest whose build-file marker line occurs twice. -/
def cexDouble : List String := [bfLineEx, bfLineEx]

/-- A manifest carrying only the frameworks-phase markers: the only injection
that fires is the one whose synthesized lines do not contain the sentinel. -/
def cexFwOnly : List String := [fwLineEx, filesLineEx]

/-- A manifest whose native target block closes before any `productType = `
line: the begin marker arms the flag, the block closes, and a later
`productType = ` line outside the block still receives the sub-block. -/
def cexNtEscape : List String := [ntLineEx, closeLineEx, ptLineEx]

/-! ### Line-profile predicates: which of the six markers a line contains -/

/-- A line matching none of the five markers the first pass tests. -/
def neut1 (l : String) : Prop :=
  containsSub l beginBuildFileMarker = false ∧ containsSub l fwBeginMarker = false ∧
  containsSub l filesMarker = false ∧ containsSub l ntBeginMarker = false ∧
  containsSub l productTypeMarker = false

/-- A line matching none of the six markers of either pass. -/
def neutAll (l : String) : Prop :=
  neut1 l ∧ containsSub l beginProjectMarker = false

/-- A line containing the build-file section marker and no other marker. -/
def onlyBfLine (l : String) : Prop :=
  containsSub l beginBuildFileMarker = true ∧ containsSub l fwBeginMarker = false ∧
  containsSub l filesMarker = false ∧ containsSub l ntBeginMarker = false ∧
  containsSub l productTypeMarker = false ∧ containsSub l beginProjectMarker = false

/-- A line containing the frameworks-phase begin marker and no other marker. -/
def onlyFwLine (l : String) : Prop :=
  containsSub l beginBuildFileMarker = false ∧ containsSub l fwBeginMarker = true ∧
  containsSub l filesMarker = false ∧ containsSub l ntBeginMarker = false ∧
  containsSub l productTypeMarker = false ∧ containsSub l beginProjectMarker = false

/-- A line containing the open-list marker `files = (` and no other marker. -/
def onlyFilesLine (l : String) : Prop :=
  containsSub l beginBuildFileMarker = false ∧ containsSub l fwBeginMarker = false ∧
  containsSub l filesMarker = true ∧ containsSub l ntBeginMarker = false ∧
  containsSub l productTypeMarker = false ∧ containsSub l beginProjectMarker = false

/-- A line containing the native-target begin marker and no other marker. -/
def onlyNtLine (l : String) : Prop :=
  containsSub l beginBuildFileMarker = false ∧ containsSub l fwBeginMarker = false ∧
  containsSub l filesMarker = false ∧ containsSub l ntBeginMarker = true ∧
  containsSub l productTypeMarker = false ∧ containsSub l beginProjectMarker = false

/-- A line containing the `productType = ` marker and no other marker. -/
def onlyPtLine (l : String) : Prop :=
  containsSub l beginBuildFileMarker = false ∧ containsSub l fwBeginMarker = false ∧
  containsSub l filesMarker = false ∧ containsSub l ntBeginMarker = false ∧
  containsSub l productTypeMarker = true ∧ containsSub l beginProjectMarker = false

/-- A line containing the project-section begin marker and no other marker. -/
def onlyPrjLine (l : String) : Prop :=
  containsSub l beginBuildFileMarker = false ∧ containsSub l fwBeginMarker = false ∧
  containsSub l filesMarker = false ∧ containsSub l ntBeginMarker = false ∧
  containsSub l productTypeMarker = false ∧ containsSub l beginProjectMarker = true

instance neut1Dec (l : String) : Decidable (neut1 l) :=
  decidable_of_iff
    (containsSub l beginBuildFileMarker = false ∧ containsSub l fwBeginMarker = false ∧
      containsSub l filesMarker = false ∧ containsSub l ntBeginMarker = false ∧
      containsSub l productTypeMarker = false) Iff.rfl

instance neutAllDec (l : String) : Decidable (neutAll l) :=
  decidable_of_iff (neut1 l ∧ containsSub l beginProjectMarker = false) Iff.rfl

instance onlyBfLineDec (l : String) : Decidable (onlyBfLine l) :=
  decidable_of_iff
    (containsSub l beginBuildFileMarker = true ∧ containsSub l fwBeginMarker = false ∧
      containsSub l filesMarker = false ∧ containsSub l ntBeginMarker = false ∧
      containsSub l productTypeMarker = false ∧ containsSub l beginProjectMarker = false) Iff.rfl

instance onlyFwLineDec (l : String) : Decidable (onlyFwLine l) :=
  decidable_of_iff
    (containsSub l beginBuildFileMarker = false ∧ containsSub l fwBeginMarker = true ∧
      containsSub l filesMarker = false ∧ containsSub l ntBeginMarker = false ∧
      containsSub l productTypeMarker = false ∧ containsSub l beginProjectMarker = false) Iff.rfl

instance onlyFilesLineDec (l : String) : Decidable (onlyFilesLine l) :=
  decidable_of_iff
    (containsSub l beginBuildFileMarker = false ∧ containsSub l fwBeginMarker = false ∧
      containsSub l filesMarker = true ∧ containsSub l ntBeginMarker = false ∧
      containsSub l productTypeMarker = false ∧ containsSub l beginProjectMarker = false) Iff.rfl

instance onlyNtLineDec (l : String) : Decidable (onlyNtLine l) :=
  decidable_of_iff
    (containsSub l beginBuildFileMarker = false ∧ containsSub l fwBeginMarker = false ∧
      containsSub l filesMarker = false ∧ containsSub l ntBeginMarker = true ∧
      containsSub l productTypeMarker = false ∧ containsSub l beginProjectMarker = false) Iff.rfl

instance onlyPtLineDec (l : String) : Decidable (onlyPtLine l) :=
  decidable_of_iff
    (containsSub l beginBuildFileMarker = false ∧ containsSub l fwBeginMarker = false ∧
      containsSub l filesMarker = false ∧ containsSub l ntBeginMarker = false ∧
      containsSub l productTypeMarker = true ∧ containsSub l beginProjectMarker = false) Iff.rfl

instance onlyPrjLineDec (l : String) : Decidable (onlyPrjLine l) :=
  decidable_of_iff
    (containsSub l beginBuildFileMarker = false ∧ containsSub l fwBeginMarker = false ∧
      containsSub l filesMarker = false ∧ containsSub l ntBeginMarker = false ∧
      containsSub l productTypeMarker = false ∧ containsSub l beginProjectMarker = true) Iff.rfl

/-! ### Step lemmas for the first pass -/

theorem pass1_cons (fw nt : Bool) (l : String) (rest : List String) :
    pass1 fw nt (l :: rest) =
      (step1 fw nt l).1 ++ pass1 (step1 fw nt l).2.1 (step1 fw nt l).2.2 rest := rfl

theorem step1_neut {l : String} (h : neut1 l) (fw nt : Bool) :
    step1 fw nt l = ([l], fw, nt) := by
  obtain ⟨h1, h2, h3, h4, h5⟩ := h
  simp [step1, h1, h2, h3, h4, h5]

theorem pass1_nil (fw nt : Bool) : pass1 fw nt [] = [] := rfl

theorem pass1_neut_cons {l : String} (h : neut1 l) (fw nt : Bool) (ys : List String) :
    pass1 fw nt (l :: ys) = l :: pass1 fw nt ys := by
  rw [pass1_cons, step1_neut h]
  rfl

theorem pass1_neut_append {xs : List String} (h : ∀ l ∈ xs, neut1 l)
    (fw nt : Bool) (ys : List String) :
    pass1 fw nt (xs ++ ys) = xs ++ pass1 fw nt ys := by
  induction xs with
  | nil => rfl
  | cons x xs ih =>
    have hx : neut1 x := h x (by simp)
    have hxs : ∀ l ∈ xs, neut1 l := fun l hl => h l (by simp [hl])
    simp only [List.cons_append, pass1_neut_cons hx, ih hxs]

theorem pass1_neut_id {xs : List String} (h : ∀ l ∈ xs, neut1 l) (fw nt : Bool) :
    pass1 fw nt xs = xs := by
  have := pass1_neut_append h fw nt []
  simpa [pass1_nil] using this

theorem pass1_bf {l : String} (h : onlyBfLine l) (fw nt : Bool) (ys : List String) :
    pass1 fw nt (l :: ys) = l :: (buildFileLines ++ pass1 fw nt ys) := by
  obtain ⟨h1, h2, h3, h4, h5, _⟩ := h
  rw [pass1_cons]
  simp [step1, h1, h2, h3, h4, h5]

theorem pass1_fw {l : String} (h : onlyFwLine l) (fw nt : Bool) (ys : List String) :
    pass1 fw nt (l :: ys) = l :: pass1 true nt ys := by
  obtain ⟨h1, h2, h3, h4, h5, _⟩ := h
  rw [pass1_cons]
  simp [step1, h1, h2, h3, h4, h5]

theorem pass1_files_armed {l : String} (h : onlyFilesLine l) (nt : Bool) (ys : List String) :
    pass1 true nt (l :: ys) = l :: (frameworksRefLines ++ pass1 false nt ys) := by
  obtain ⟨h1, h2, h3, h4, h5, _⟩ := h
  rw [pass1_cons]
  simp [step1, h1, h2, h3, h4, h5]

theorem pass1_files_unarmed {l : String} (h : onlyFilesLine l) (nt : Bool) (ys : List String) :
    pass1 false nt (l :: ys) = l :: pass1 false nt ys := by
  obtain ⟨h1, h2, h3, h4, h5, _⟩ := h
  rw [pass1_cons]
  simp [step1, h1, h2, h3, h4, h5]

theorem pass1_nt {l : String} (h : onlyNtLine l) (fw nt : Bool) (ys : List String) :
    pass1 fw nt (l :: ys) = l :: pass1 fw true ys := by
  obtain ⟨h1, h2, h3, h4, h5, _⟩ := h
  rw [pass1_cons]
  simp [step1, h1, h2, h3, h4, h5]

theorem pass1_pt_armed {l : String} (h : onlyPtLine l) (fw : Bool) (ys : List String) :
    pass1 fw true (l :: ys) = l :: (depBlockLines ++ pass1 fw false ys) := by
  obtain ⟨h1, h2, h3, h4, h5, _⟩ := h
  rw [pass1_cons]
  simp [step1, h1, h2, h3, h4, h5]

theorem pass1_pt_unarmed {l : String} (h : onlyPtLine l) (fw : Bool) (ys : List String) :
    pass1 fw false (l :: ys) = l :: pass1 fw false ys := by
  obtain ⟨h1, h2, h3, h4, h5, _⟩ := h
  rw [pass1_cons]
  simp [step1, h1, h2, h3, h4, h5]

/-! ### Step lemmas for the second pass -/

theorem pass2_nil (b : Bool) : pass2 b [] = [] := rfl

theorem pass2_true (ys : List String) : pass2 true ys = ys := by
  induction ys with
  | nil => rfl
  | cons y ys ih => simp [pass2, ih]

theorem pass2_skip {l : String} (h : containsSub l beginProjectMarker = false)
    (b : Bool) (ys : List String) : pass2 b (l :: ys) = l :: pass2 b ys := by
  simp [pass2, h]

theorem pass2_skip_append {xs : List String}
    (h : ∀ l ∈ xs, containsSub l beginProjectMarker = false)
    (b : Bool) (ys : List String) : pass2 b (xs ++ ys) = xs ++ pass2 b ys := by
  induction xs with
  | nil => rfl
  | cons x xs ih =>
    have hx := h x (by simp)
    have hxs : ∀ l ∈ xs, containsSub l beginProjectMarker = false :=
      fun l hl => h l (by simp [hl])
    simp only [List.cons_append, pass2_skip hx, ih hxs]

theorem pass2_id {xs : List String}
    (h : ∀ l ∈ xs, containsSub l beginProjectMarker = false)
    (b : Bool) : pass2 b xs = xs := by
  have := pass2_skip_append h b []
  simpa [pass2_nil] using this

theorem pass2_fire {m : String} (h : containsSub m beginProjectMarker = true)
    (ys : List String) :
    pass2 false (m :: ys) = depSectionLines ++ m :: ys := by
  simp [pass2, h, pass2_true]

/-! ### Marker-freeness of the synthesized lines -/

theorem buildFileLines_noPrj :
    ∀ l ∈ buildFileLines, containsSub l beginProjectMarker = false := by decide

theorem frameworksRefLines_noPrj :
    ∀ l ∈ frameworksRefLines, containsSub l beginProjectMarker = false := by decide

theorem depBlockLines_noPrj :
    ∀ l ∈ depBlockLines, containsSub l beginProjectMarker = false := by decide

theorem onlyPrjLine_neut1 {l : String} (h : onlyPrjLine l) : neut1 l :=
  ⟨h.1, h.2.1, h.2.2.1, h.2.2.2.1, h.2.2.2.2.1⟩

/-! ### The full mutation on a well-formed manifest

`patch_wellFormed` is the structural core shared by several claims: a manifest
with all four markers exactly once, in the order a real `project.pbxproj` has
them (the frameworks begin marker before its `files = (` line, the native
target begin marker before its `productType = ` line), is expanded by exactly
the four insertions at exactly the specified positions and nothing else. -/

theorem patch_wellFormed
    (A B C D E F G : List String) (lbf lfw lfl lnt lpt lprj : String)
    (hA : ∀ l ∈ A, neutAll l) (hB : ∀ l ∈ B, neutAll l) (hC : ∀ l ∈ C, neutAll l)
    (hD : ∀ l ∈ D, neutAll l) (hE : ∀ l ∈ E, neutAll l) (hF : ∀ l ∈ F, neutAll l)
    (hG : ∀ l ∈ G, neut1 l)
    (hbf : onlyBfLine lbf) (hfw : onlyFwLine lfw) (hfl : onlyFilesLine lfl)
    (hnt : onlyNtLine lnt) (hpt : onlyPtLine lpt) (hprj : onlyPrjLine lprj) :
    patch (A ++ lbf :: (B ++ lfw :: (C ++ lfl :: (D ++ lnt :: (E ++ lpt :: (F ++ lprj :: G)))))) =
      A ++ lbf :: (buildFileLines ++ (B ++ lfw :: (C ++ lfl :: (frameworksRefLines ++
        (D ++ lnt :: (E ++ lpt :: (depBlockLines ++ (F ++ (depSectionLines ++ lprj :: G))))))))) := by
  have hA1 : ∀ l ∈ A, neut1 l := fun l hl => (hA l hl).1
  have hB1 : ∀ l ∈ B, neut1 l := fun l hl => (hB l hl).1
  have hC1 : ∀ l ∈ C, neut1 l := fun l hl => (hC l hl).1
  have hD1 : ∀ l ∈ D, neut1 l := fun l hl => (hD l hl).1
  have hE1 : ∀ l ∈ E, neut1 l := fun l hl => (hE l hl).1
  have hF1 : ∀ l ∈ F, neut1 l := fun l hl => (hF l hl).1
  have hA2 : ∀ l ∈ A, containsSub l beginProjectMarker = false := fun l hl => (hA l hl).2
  have hB2 : ∀ l ∈ B, containsSub l beginProjectMarker = false := fun l hl => (hB l hl).2
  have hC2 : ∀ l ∈ C, containsSub l beginProjectMarker = false := fun l hl => (hC l hl).2
  have hD2 : ∀ l ∈ D, containsSub l beginProjectMarker = false := fun l hl => (hD l hl).2
  have hE2 : ∀ l ∈ E, containsSub l beginProjectMarker = false := fun l hl => (hE l hl).2
  have hF2 : ∀ l ∈ F, containsSub l beginProjectMarker = false := fun l hl => (hF l hl).2
  unfold patch
  rw [pass1_neut_append hA1, pass1_bf hbf, pass1_neut_append hB1, pass1_fw hfw,
      pass1_neut_append hC1, pass1_files_armed hfl, pass1_neut_append hD1, pass1_nt hnt,
      pass1_neut_append hE1, pass1_pt_armed hpt, pass1_neut_append hF1,
      pass1_neut_cons (onlyPrjLine_neut1 hprj), pass1_neut_id hG]
  rw [pass2_skip_append hA2, pass2_skip hbf.2.2.2.2.2, pass2_skip_append buildFileLines_noPrj,
      pass2_skip_append hB2, pass2_skip hfw.2.2.2.2.2, pass2_skip_append hC2,
      pass2_skip hfl.2.2.2.2.2, pass2_skip_append frameworksRefLines_noPrj,
      pass2_skip_append hD2, pass2_skip hnt.2.2.2.2.2, pass2_skip_append hE2,
      pass2_skip hpt.2.2.2.2.2, pass2_skip_append depBlockLines_noPrj,
      pass2_skip_append hF2, pass2_fire hprj.2.2.2.2.2]

/-! ### The mutation with one marker missing (the other three present) -/

theorem patch_missingBf
    (A C D E F G : List String) (lfw lfl lnt lpt lprj : String)
    (hA : ∀ l ∈ A, neutAll l) (hC : ∀ l ∈ C, neutAll l) (hD : ∀ l ∈ D, neutAll l)
    (hE : ∀ l ∈ E, neutAll l) (hF : ∀ l ∈ F, neutAll l) (hG : ∀ l ∈ G, neut1 l)
    (hfw : onlyFwLine lfw) (hfl : onlyFilesLine lfl)
    (hnt : onlyNtLine lnt) (hpt : onlyPtLine lpt) (hprj : onlyPrjLine lprj) :
    patch (A ++ lfw :: (C ++ lfl :: (D ++ lnt :: (E ++ lpt :: (F ++ lprj :: G))))) =
      A ++ lfw :: (C ++ lfl :: (frameworksRefLines ++ (D ++ lnt :: (E ++ lpt ::
        (depBlockLines ++ (F ++ (depSectionLines ++ lprj :: G))))))) := by
  have hA1 : ∀ l ∈ A, neut1 l := fun l hl => (hA l hl).1
  have hC1 : ∀ l ∈ C, neut1 l := fun l hl => (hC l hl).1
  have hD1 : ∀ l ∈ D, neut1 l := fun l hl => (hD l hl).1
  have hE1 : ∀ l ∈ E, neut1 l := fun l hl => (hE l hl).1
  have hF1 : ∀ l ∈ F, neut1 l := fun l hl => (hF l hl).1
  have hA2 : ∀ l ∈ A, containsSub l beginProjectMarker = false := fun l hl => (hA l hl).2
  have hC2 : ∀ l ∈ C, containsSub l beginProjectMarker = false := fun l hl => (hC l hl).2
  have hD2 : ∀ l ∈ D, containsSub l beginProjectMarker = false := fun l hl => (hD l hl).2
  have hE2 : ∀ l ∈ E, containsSub l beginProjectMarker = false := fun l hl => (hE l hl).2
  have hF2 : ∀ l ∈ F, containsSub l beginProjectMarker = false := fun l hl => (hF l hl).2
  unfold patch
  rw [pass1_neut_append hA1, pass1_fw hfw, pass1_neut_append hC1, pass1_files_armed hfl,
      pass1_neut_append hD1, pass1_nt hnt, pass1_neut_append hE1, pass1_pt_armed hpt,
      pass1_neut_append hF1, pass1_neut_cons (onlyPrjLine_neut1 hprj), pass1_neut_id hG]
  rw [pass2_skip_append hA2, pass2_skip hfw.2.2.2.2.2, pass2_skip_append hC2,
      pass2_skip hfl.2.2.2.2.2, pass2_skip_append frameworksRefLines_noPrj,
      pass2_skip_append hD2, pass2_skip hnt.2.2.2.2.2, pass2_skip_append hE2,
      pass2_skip hpt.2.2.2.2.2, pass2_skip_append depBlockLines_noPrj,
      pass2_skip_append hF2, pass2_fire hprj.2.2.2.2.2]

theorem patch_missingFw
    (A B D E F G : List String) (lbf lfl lnt lpt lprj : String)
    (hA : ∀ l ∈ A, neutAll l) (hB : ∀ l ∈ B, neutAll l) (hD : ∀ l ∈ D, neutAll l)
    (hE : ∀ l ∈ E, neutAll l) (hF : ∀ l ∈ F, neutAll l) (hG : ∀ l ∈ G, neut1 l)
    (hbf : onlyBfLine lbf) (hfl : onlyFilesLine lfl)
    (hnt : onlyNtLine lnt) (hpt : onlyPtLine lpt) (hprj : onlyPrjLine lprj) :
    patch (A ++ lbf :: (B ++ lfl :: (D ++ lnt :: (E ++ lpt :: (F ++ lprj :: G))))) =
      A ++ lbf :: (buildFileLines ++ (B ++ lfl :: (D ++ lnt :: (E ++ lpt ::
        (depBlockLines ++ (F ++ (depSectionLines ++ lprj :: G))))))) := by
  have hA1 : ∀ l ∈ A, neut1 l := fun l hl => (hA l hl).1
  have hB1 : ∀ l ∈ B, neut1 l := fun l hl => (hB l hl).1
  have hD1 : ∀ l ∈ D, neut1 l := fun l hl => (hD l hl).1
  have hE1 : ∀ l ∈ E, neut1 l := fun l hl => (hE l hl).1
  have hF1 : ∀ l ∈ F, neut1 l := fun l hl => (hF l hl).1
  have hA2 : ∀ l ∈ A, containsSub l beginProjectMarker = false := fun l hl => (hA l hl).2
  have hB2 : ∀ l ∈ B, containsSub l beginProjectMarker = false := fun l hl => (hB l hl).2
  have hD2 : ∀ l ∈ D, containsSub l beginProjectMarker = false := fun l hl => (hD l hl).2
  have hE2 : ∀ l ∈ E, containsSub l beginProjectMarker = false := fun l hl => (hE l hl).2
  have hF2 : ∀ l ∈ F, containsSub l beginProjectMarker = false := fun l hl => (hF l hl).2
  unfold patch
  rw [pass1_neut_append hA1, pass1_bf hbf, pass1_neut_append hB1, pass1_files_unarmed hfl,
      pass1_neut_append hD1, pass1_nt hnt, pass1_neut_append hE1, pass1_pt_armed hpt,
      pass1_neut_append hF1, pass1_neut_cons (onlyPrjLine_neut1 hprj), pass1_neut_id hG]
  rw [pass2_skip_append hA2, pass2_skip hbf.2.2.2.2.2, pass2_skip_append buildFileLines_noPrj,
      pass2_skip_append hB2, pass2_skip hfl.2.2.2.2.2, pass2_skip_append hD2,
      pass2_skip hnt.2.2.2.2.2, pass2_skip_append hE2, pass2_skip hpt.2.2.2.2.2,
      pass2_skip_append depBlockLines_noPrj, pass2_skip_append hF2,
      pass2_fire hprj.2.2.2.2.2]

theorem patch_missingNt
    (A B C D F G : List String) (lbf lfw lfl lpt lprj : String)
    (hA : ∀ l ∈ A, neutAll l) (hB : ∀ l ∈ B, neutAll l) (hC : ∀ l ∈ C, neutAll l)
    (hD : ∀ l ∈ D, neutAll l) (hF : ∀ l ∈ F, neutAll l) (hG : ∀ l ∈ G, neut1 l)
    (hbf : onlyBfLine lbf) (hfw : onlyFwLine lfw) (hfl : onlyFilesLine lfl)
    (hpt : onlyPtLine lpt) (hprj : onlyPrjLine lprj) :
    patch (A ++ lbf :: (B ++ lfw :: (C ++ lfl :: (D ++ lpt :: (F ++ lprj :: G))))) =
      A ++ lbf :: (buildFileLines ++ (B ++ lfw :: (C ++ lfl :: (frameworksRefLines ++
        (D ++ lpt :: (F ++ (depSectionLines ++ lprj :: G))))))) := by
  have hA1 : ∀ l ∈ A, neut1 l := fun l hl => (hA l hl).1
  have hB1 : ∀ l ∈ B, neut1 l := fun l hl => (hB l hl).1
  have hC1 : ∀ l ∈ C, neut1 l := fun l hl => (hC l hl).1
  have hD1 : ∀ l ∈ D, neut1 l := fun l hl => (hD l hl).1
  have hF1 : ∀ l ∈ F, neut1 l := fun l hl => (hF l hl).1
  have hA2 : ∀ l ∈ A, containsSub l beginProjectMarker = false := fun l hl => (hA l hl).2
  have hB2 : ∀ l ∈ B, containsSub l beginProjectMarker = false := fun l hl => (hB l hl).2
  have hC2 : ∀ l ∈ C, containsSub l beginProjectMarker = false := fun l hl => (hC l hl).2
  have hD2 : ∀ l ∈ D, containsSub l beginProjectMarker = false := fun l hl => (hD l hl).2
  have hF2 : ∀ l ∈ F, containsSub l beginProjectMarker = false := fun l hl => (hF l hl).2
  unfold patch
  rw [pass1_neut_append hA1, pass1_bf hbf, pass1_neut_append hB1, pass1_fw hfw,
      pass1_neut_append hC1, pass1_files_armed hfl, pass1_neut_append hD1,
      pass1_pt_unarmed hpt, pass1_neut_append hF1,
      pass1_neut_cons (onlyPrjLine_neut1 hprj), pass1_neut_id hG]
  rw [pass2_skip_append hA2, pass2_skip hbf.2.2.2.2.2, pass2_skip_append buildFileLines_noPrj,
      pass2_skip_append hB2, pass2_skip hfw.2.2.2.2.2, pass2_skip_append hC2,
      pass2_skip hfl.2.2.2.2.2, pass2_skip_append frameworksRefLines_noPrj,
      pass2_skip_append hD2, pass2_skip hpt.2.2.2.2.2, pass2_skip_append hF2,
      pass2_fire hprj.2.2.2.2.2]

theorem patch_missingPrj
    (A B C D E F : List String) (lbf lfw lfl lnt lpt : String)
    (hA : ∀ l ∈ A, neutAll l) (hB : ∀ l ∈ B, neutAll l) (hC : ∀ l ∈ C, neutAll l)
    (hD : ∀ l ∈ D, neutAll l) (hE : ∀ l ∈ E, neutAll l) (hF : ∀ l ∈ F, neutAll l)
    (hbf : onlyBfLine lbf) (hfw : onlyFwLine lfw) (hfl : onlyFilesLine lfl)
    (hnt : onlyNtLine lnt) (hpt : onlyPtLine lpt) :
    patch (A ++ lbf :: (B ++ lfw :: (C ++ lfl :: (D ++ lnt :: (E ++ lpt :: F))))) =
      A ++ lbf :: (buildFileLines ++ (B ++ lfw :: (C ++ lfl :: (frameworksRefLines ++
        (D ++ lnt :: (E ++ lpt :: (depBlockLines ++ F))))))) := by
  have hA1 : ∀ l ∈ A, neut1 l := fun l hl => (hA l hl).1
  have hB1 : ∀ l ∈ B, neut1 l := fun l hl => (hB l hl).1
  have hC1 : ∀ l ∈ C, neut1 l := fun l hl => (hC l hl).1
  have hD1 : ∀ l ∈ D, neut1 l := fun l hl => (hD l hl).1
  have hE1 : ∀ l ∈ E, neut1 l := fun l hl => (hE l hl).1
  have hF1 : ∀ l ∈ F, neut1 l := fun l hl => (hF l hl).1
  have hA2 : ∀ l ∈ A, containsSub l beginProjectMarker = false := fun l hl => (hA l hl).2
  have hB2 : ∀ l ∈ B, containsSub l beginProjectMarker = false := fun l hl => (hB l hl).2
  have hC2 : ∀ l ∈ C, containsSub l beginProjectMarker = false := fun l hl => (hC l hl).2
  have hD2 : ∀ l ∈ D, containsSub l beginProjectMarker = false := fun l hl => (hD l hl).2
  have hE2 : ∀ l ∈ E, containsSub l beginProjectMarker = false := fun l hl => (hE l hl).2
  have hF2 : ∀ l ∈ F, containsSub l beginProjectMarker = false := fun l hl => (hF l hl).2
  unfold patch
  rw [pass1_neut_append hA1, pass1_bf hbf, pass1_neut_append hB1, pass1_fw hfw,
      pass1_neut_append hC1, pass1_files_armed hfl, pass1_neut_append hD1, pass1_nt hnt,
      pass1_neut_append hE1, pass1_pt_armed hpt, pass1_neut_id hF1]
  rw [pass2_skip_append hA2, pass2_skip hbf.2.2.2.2.2, pass2_skip_append buildFileLines_noPrj,
      pass2_skip_append hB2, pass2_skip hfw.2.2.2.2.2, pass2_skip_append hC2,
      pass2_skip hfl.2.2.2.2.2, pass2_skip_append frameworksRefLines_noPrj,
      pass2_skip_append hD2, pass2_skip hnt.2.2.2.2.2, pass2_skip_append hE2,
      pass2_skip hpt.2.2.2.2.2, pass2_skip_append depBlockLines_noPrj, pass2_id hF2]

/-! ### Occurrence-count bookkeeping -/

theorem occsTotal_append (p : String) (xs ys : List String) :
    occsTotal p (xs ++ ys) = occsTotal p xs + occsTotal p ys := by
  simp [occsTotal]

theorem occsTotal_cons (p l : String) (ys : List String) :
    occsTotal p (l :: ys) = occs p l + occsTotal p ys := by
  simp [occsTotal]

theorem occsTotal_zero {p : String} {xs : List String} (h : ∀ l ∈ xs, occs p l = 0) :
    occsTotal p xs = 0 := by
  refine List.sum_eq_zero ?_
  intro x hx
  obtain ⟨l, hl, rfl⟩ := List.mem_map.mp hx
  exact h l hl

/-! ### Projections of `step1` in explicit form -/

theorem step1_fst (fw nt : Bool) (l : String) :
    (step1 fw nt l).1 =
      l :: ((if containsSub l beginBuildFileMarker then buildFileLines else []) ++
        (if (if containsSub l fwBeginMarker then true else fw) && containsSub l filesMarker
          then frameworksRefLines else []) ++
        (if (if containsSub l ntBeginMarker then true else nt) && containsSub l productTypeMarker
          then depBlockLines else [])) := rfl

theorem step1_fw2 (fw nt : Bool) (l : String) :
    (step1 fw nt l).2.1 =
      if (if containsSub l fwBeginMarker then true else fw) && containsSub l filesMarker
        then false else if containsSub l fwBeginMarker then true else fw := rfl

theorem step1_nt2 (fw nt : Bool) (l : String) :
    (step1 fw nt l).2.2 =
      if (if containsSub l ntBeginMarker then true else nt) && containsSub l productTypeMarker
        then false else if containsSub l ntBeginMarker then true else nt := rfl

/-! ### Both passes only ever insert lines -/

theorem pass1_sublist (fw nt : Bool) (lines : List String) :
    lines.Sublist (pass1 fw nt lines) := by
  induction lines generalizing fw nt with
  | nil => simp [pass1]
  | cons l rest ih =>
    rw [pass1_cons, step1_fst]
    simp only [List.cons_append]
    exact ((ih _ _).trans (List.sublist_append_right _ _)).cons₂ l

theorem pass2_sublist (b : Bool) (lines : List String) :
    lines.Sublist (pass2 b lines) := by
  induction lines generalizing b with
  | nil => simp [pass2]
  | cons l rest ih =>
    by_cases h : (containsSub l beginProjectMarker && !b) = true
    · simp only [pass2, if_pos h]
      exact (((ih true).cons₂ l)).trans (List.sublist_append_right depSectionLines _)
    · simp only [pass2, if_neg h]
      exact (ih b).cons₂ l

/-! ### The second pass inserts its section at most once -/

theorem pass2_once (lines : List String) :
    pass2 false lines = lines ∨
      ∃ X Y, lines = X ++ Y ∧ pass2 false lines = X ++ (depSectionLines ++ Y) := by
  induction lines with
  | nil => exact Or.inl rfl
  | cons l rest ih =>
    cases h : containsSub l beginProjectMarker with
    | true =>
      refine Or.inr ⟨[], l :: rest, rfl, ?_⟩
      rw [pass2_fire h]
      simp
    | false =>
      rcases ih with h1 | ⟨X, Y, hXY, h2⟩
      · exact Or.inl (by rw [pass2_skip h, h1])
      · refine Or.inr ⟨l :: X, Y, by rw [hXY]; rfl, ?_⟩
        rw [pass2_skip h, h2]
        rfl

/-! ### Counting the signature line of each injected block

Each of the three blocks the first pass inserts is identified by its first
synthesized line; counting copies of that line counts firings of the
corresponding injection. -/

/-- First line inserted by the build-file injection. -/
def bfSigLine : String :=
  "\t\t" ++ mlx_build_id ++ " /* MLX in Frameworks */ = \x7bisa = PBXBuildFile; productRef = " ++ mlx_dep_id ++ " /* MLX */; \x7d;\n"

/-- First line inserted by the frameworks-phase injection. -/
def fwSigLine : String := "\t\t\t\t" ++ mlx_build_id ++ " /* MLX in Frameworks */,\n"

/-- First line inserted by the native-target dependency injection. -/
def ntSigLine : String := "\t\t\tpackageProductDependencies = (\n"

theorem count_bfSig_buildFileLines : buildFileLines.count bfSigLine = 1 := by decide
theorem count_bfSig_frameworksRefLines : frameworksRefLines.count bfSigLine = 0 := by decide
theorem count_bfSig_depBlockLines : depBlockLines.count bfSigLine = 0 := by decide
theorem count_fwSig_buildFileLines : buildFileLines.count fwSigLine = 0 := by decide
theorem count_fwSig_frameworksRefLines : frameworksRefLines.count fwSigLine = 1 := by decide
theorem count_fwSig_depBlockLines : depBlockLines.count fwSigLine = 0 := by decide
theorem count_ntSig_buildFileLines : buildFileLines.count ntSigLine = 0 := by decide
theorem count_ntSig_frameworksRefLines : frameworksRefLines.count ntSigLine = 0 := by decide
theorem count_ntSig_depBlockLines : depBlockLines.count ntSigLine = 1 := by decide

theorem step1_count_bfSig (fw nt : Bool) (l : String) :
    ((step1 fw nt l).1).count bfSigLine =
      (if l = bfSigLine then 1 else 0) +
        (if containsSub l beginBuildFileMarker = true then 1 else 0) := by
  rw [step1_fst]
  by_cases h1 : containsSub l beginBuildFileMarker = true <;>
  by_cases h2 : containsSub l fwBeginMarker = true <;>
  by_cases h3 : containsSub l filesMarker = true <;>
  by_cases h4 : containsSub l ntBeginMarker = true <;>
  by_cases h5 : containsSub l productTypeMarker = true <;>
    simp [h1, h2, h3, h4, h5, List.count_cons, List.count_append,
      apply_ite (List.count bfSigLine),
      count_bfSig_buildFileLines, count_bfSig_frameworksRefLines,
      count_bfSig_depBlockLines] <;>
    omega

theorem step1_count_fwSig (fw nt : Bool) (l : String) :
    ((step1 fw nt l).1).count fwSigLine =
      (if l = fwSigLine then 1 else 0) +
        (if ((if containsSub l fwBeginMarker then true else fw) && containsSub l filesMarker) = true
          then 1 else 0) := by
  rw [step1_fst]
  by_cases h1 : containsSub l beginBuildFileMarker = true <;>
  by_cases h2 : containsSub l fwBeginMarker = true <;>
  by_cases h3 : containsSub l filesMarker = true <;>
  by_cases h4 : containsSub l ntBeginMarker = true <;>
  by_cases h5 : containsSub l productTypeMarker = true <;>
    simp [h1, h2, h3, h4, h5, List.count_cons, List.count_append,
      apply_ite (List.count fwSigLine),
      count_fwSig_buildFileLines, count_fwSig_frameworksRefLines,
      count_fwSig_depBlockLines] <;>
    omega

theorem step1_count_ntSig (fw nt : Bool) (l : String) :
    ((step1 fw nt l).1).count ntSigLine =
      (if l = ntSigLine then 1 else 0) +
        (if ((if containsSub l ntBeginMarker then true else nt) && containsSub l productTypeMarker) = true
          then 1 else 0) := by
  rw [step1_fst]
  by_cases h1 : containsSub l beginBuildFileMarker = true <;>
  by_cases h2 : containsSub l fwBeginMarker = true <;>
  by_cases h3 : containsSub l filesMarker = true <;>
  by_cases h4 : containsSub l ntBeginMarker = true <;>
  by_cases h5 : containsSub l productTypeMarker = true <;>
    simp [h1, h2, h3, h4, h5, List.count_cons, List.count_append,
      apply_ite (List.count ntSigLine),
      count_ntSig_buildFileLines, count_ntSig_frameworksRefLines,
      count_ntSig_depBlockLines] <;>
    omega

theorem pass1_count_bfSig (fw nt : Bool) (lines : List String) :
    (pass1 fw nt lines).count bfSigLine =
      lines.count bfSigLine +
        lines.countP (fun l => containsSub l beginBuildFileMarker) := by
  induction lines generalizing fw nt with
  | nil => simp [pass1]
  | cons l rest ih =>
    rw [pass1_cons, List.count_append, step1_count_bfSig,
      ih ((step1 fw nt l).2.1) ((step1 fw nt l).2.2)]
    simp only [List.count_cons, List.countP_cons, beq_iff_eq]
    omega

theorem fwBudget (fw c2 c3 : Bool) :
    (if (if c2 then true else fw) && c3 then 1 else 0) +
      (if (if (if c2 then true else fw) && c3 then false else if c2 then true else fw)
        then 1 else 0) ≤
      (if fw then 1 else 0) + (if c2 then 1 else 0) := by
  cases fw <;> cases c2 <;> cases c3 <;> decide

theorem pass1_count_fwSig_le (fw nt : Bool) (lines : List String) :
    (pass1 fw nt lines).count fwSigLine ≤
      (lines.count fwSigLine + (if fw then 1 else 0)) +
        lines.countP (fun l => containsSub l fwBeginMarker) := by
  induction lines generalizing fw nt with
  | nil => simp [pass1]
  | cons l rest ih =>
    rw [pass1_cons, List.count_append, step1_count_fwSig, step1_fw2]
    have hrec := ih
      (if (if containsSub l fwBeginMarker then true else fw) && containsSub l filesMarker
        then false else if containsSub l fwBeginMarker then true else fw)
      ((step1 fw nt l).2.2)
    have hb := fwBudget fw (containsSub l fwBeginMarker) (containsSub l filesMarker)
    simp only [List.count_cons, List.countP_cons, beq_iff_eq]
    omega

/-! ### Firing record of the native-target injection

`ntFireIdxs nt lines` lists the indices of the lines after which the first
pass (entered with `in_native_target = nt`) appends the dependency sub-block;
it mirrors the arming/firing logic of lines 52-62 of the script exactly. -/

def ntFireIdxs : Bool → List String → List Nat
  | _, [] => []
  | nt, l :: rest =>
    let nt1 := if containsSub l ntBeginMarker then true else nt
    if nt1 && containsSub l productTypeMarker then
      0 :: (ntFireIdxs false rest).map (· + 1)
    else
      (ntFireIdxs nt1 rest).map (· + 1)

theorem pass1_count_ntSig (fw nt : Bool) (lines : List String) :
    (pass1 fw nt lines).count ntSigLine =
      lines.count ntSigLine + (ntFireIdxs nt lines).length := by
  induction lines generalizing fw nt with
  | nil => simp [pass1, ntFireIdxs]
  | cons l rest ih =>
    rw [pass1_cons, List.count_append, step1_count_ntSig, step1_nt2]
    have hrec1 := ih ((step1 fw nt l).2.1) false
    have hrec2 := ih ((step1 fw nt l).2.1) true
    cases hc4 : containsSub l ntBeginMarker <;>
    cases hc5 : containsSub l productTypeMarker <;>
    cases nt <;>
      simp [ntFireIdxs, hc4, hc5, hrec1, hrec2, List.count_cons] <;>
      omega

theorem ntFireIdxs_length_le (nt : Bool) (lines : List String) :
    (ntFireIdxs nt lines).length ≤
      (if nt then 1 else 0) + lines.countP (fun l => containsSub l ntBeginMarker) := by
  induction lines generalizing nt with
  | nil => simp [ntFireIdxs]
  | cons l rest ih =>
    have h1 := ih false
    have h2 := ih true
    cases hc4 : containsSub l ntBeginMarker <;>
    cases hc5 : containsSub l productTypeMarker <;>
    cases nt <;>
      simp [ntFireIdxs, hc4, hc5, List.countP_cons] at h1 h2 ⊢ <;>
      omega

/-- Every index at which the native-target injection fires names a line that
contains the `productType = ` marker and is preceded (weakly) by a line
containing the native-target begin marker. -/
theorem ntFireIdxs_mem (lines : List String) : ∀ (nt : Bool) (j : Nat),
    j ∈ ntFireIdxs nt lines →
      (∃ l, lines[j]? = some l ∧ containsSub l productTypeMarker = true) ∧
      (nt = true ∨ ∃ i, i ≤ j ∧ ∃ m, lines[i]? = some m ∧ containsSub m ntBeginMarker = true) := by
  induction lines with
  | nil => intro nt j hj; simp [ntFireIdxs] at hj
  | cons l rest ih =>
    intro nt j hj
    have hunfold : ntFireIdxs nt (l :: rest) =
        if (if containsSub l ntBeginMarker then true else nt) && containsSub l productTypeMarker then
          0 :: (ntFireIdxs false rest).map (· + 1)
        else (ntFireIdxs (if containsSub l ntBeginMarker then true else nt) rest).map (· + 1) := rfl
    by_cases hfire : ((if containsSub l ntBeginMarker then true else nt) && containsSub l productTypeMarker) = true
    · rw [hunfold, if_pos hfire] at hj
      rcases List.mem_cons.mp hj with rfl | hj2
      · obtain ⟨hnt1, hc5⟩ := (Bool.and_eq_true _ _).mp hfire
        refine ⟨⟨l, by simp, hc5⟩, ?_⟩
        cases hc4 : containsSub l ntBeginMarker with
        | true => exact Or.inr ⟨0, Nat.le_refl 0, l, by simp, hc4⟩
        | false => rw [hc4] at hnt1; exact Or.inl (by simpa using hnt1)
      · obtain ⟨j', hj', rfl⟩ := List.mem_map.mp hj2
        obtain ⟨⟨l2, hl2, hpt⟩, hrest⟩ := ih false j' hj'
        refine ⟨⟨l2, by simpa using hl2, hpt⟩, ?_⟩
        rcases hrest with hfalse | ⟨i, hij, m, hm, hmk⟩
        · exact absurd hfalse (by simp)
        · exact Or.inr ⟨i + 1, Nat.succ_le_succ hij, m, by simpa using hm, hmk⟩
    · rw [hunfold, if_neg hfire] at hj
      obtain ⟨j', hj', rfl⟩ := List.mem_map.mp hj
      obtain ⟨⟨l2, hl2, hpt⟩, hrest⟩ := ih _ j' hj'
      refine ⟨⟨l2, by simpa using hl2, hpt⟩, ?_⟩
      rcases hrest with hnt1 | ⟨i, hij, m, hm, hmk⟩
      · cases hc4 : containsSub l ntBeginMarker with
        | true => exact Or.inr ⟨0, Nat.zero_le _, l, by simp, hc4⟩
        | false => rw [hc4] at hnt1; exact Or.inl (by simpa using hnt1)
      · exact Or.inr ⟨i + 1, Nat.succ_le_succ hij, m, by simpa using hm, hmk⟩

/-! ### The spec's "within the native target block" reading -/

/-- The line of the document at index `i` (empty string when out of range). -/
def lineAt (lines : List String) (i : Nat) : String := (lines[i]?).getD ""

/-- Block-closing delimiter of a brace-delimited record in the manifest. -/
def closeBraceMarker : String := "\x7d;"

/-- Rendering of the spec's words (§4.3, "the next line within that block"):
index `j` lies within the native target block when some line at `i ≤ j`
carries the native-target begin marker and no line strictly between `i` and
`j` carries a block-closing delimiter.  The script itself never tracks the
closing delimiter; this definition exists to compare the spec's reading with
the script's behaviour. -/
def insideNativeTargetBlock (lines : List String) (j : Nat) : Bool :=
  (List.range (j + 1)).any fun i =>
    containsSub (lineAt lines i) ntBeginMarker &&
      decide (∀ k ∈ List.range j, i < k → containsSub (lineAt lines k) closeBraceMarker = false)

/-! ### The `readlines` model

`splitLines` models Python's `f.readlines()`: the content is cut after every
newline character, and a trailing fragment without a newline forms a final
line.  `validReadlines` characterises exactly the line lists `readlines` can
produce; on those, `splitLines` inverts `String.join` ("".join in the
script), so the line list — and hence the whole run — is a function of the
file's byte content. -/

def splitLinesAux (acc : List Char) : List Char → List String
  | [] => if acc.isEmpty then [] else [String.mk acc.reverse]
  | c :: cs =>
    if c = '\n' then String.mk (acc.reverse ++ ['\n']) :: splitLinesAux [] cs
    else splitLinesAux (c :: acc) cs

def splitLines (s : String) : List String := splitLinesAux [] s.toList

/-- A non-final `readlines` line: nonempty, ends with a newline, and has no
interior newline. -/
def fullLine (l : String) : Prop :=
  l.toList ≠ [] ∧ l.toList.getLast? = some '\n' ∧
    l.toList.dropLast.all (· != '\n') = true

/-- A final `readlines` line: nonempty with no interior newline (a trailing
newline is allowed). -/
def lastLine (l : String) : Prop :=
  l.toList ≠ [] ∧ l.toList.dropLast.all (· != '\n') = true

/-- The shape of any list `readlines` can return. -/
def validReadlines : List String → Prop
  | [] => True
  | [l] => lastLine l
  | l :: rest => fullLine l ∧ validReadlines rest

instance fullLineDec (l : String) : Decidable (fullLine l) :=
  decidable_of_iff
    (l.toList ≠ [] ∧ l.toList.getLast? = some '\n' ∧
      l.toList.dropLast.all (· != '\n') = true) Iff.rfl

instance lastLineDec (l : String) : Decidable (lastLine l) :=
  decidable_of_iff
    (l.toList ≠ [] ∧ l.toList.dropLast.all (· != '\n') = true) Iff.rfl

instance validReadlinesDec : (lines : List String) → Decidable (validReadlines lines)
  | [] => .isTrue trivial
  | [l] => decidable_of_iff (lastLine l) Iff.rfl
  | l :: l2 :: rest =>
    have : Decidable (validReadlines (l2 :: rest)) := validReadlinesDec (l2 :: rest)
    decidable_of_iff (fullLine l ∧ validReadlines (l2 :: rest)) Iff.rfl

theorem toList_append (s t : String) : (s ++ t).toList = s.toList ++ t.toList := by
  simp [String.toList, String.data_append]

theorem foldl_toList (lines : List String) : ∀ a : String,
    (lines.foldl (fun r s => r ++ s) a).toList =
      a.toList ++ (lines.map String.toList).flatten := by
  induction lines with
  | nil => intro a; simp
  | cons l rest ih =>
    intro a
    rw [List.foldl_cons, ih, toList_append, List.map_cons, List.flatten_cons,
      List.append_assoc]

theorem join_toList (lines : List String) :
    (String.join lines).toList = (lines.map String.toList).flatten := by
  have h := foldl_toList lines ""
  simpa [String.join] using h

theorem splitLinesAux_line (ds : List Char) (h : ds.all (· != '\n') = true) :
    ∀ (acc rest : List Char),
      splitLinesAux acc ((ds ++ ['\n']) ++ rest) =
        String.mk (acc.reverse ++ (ds ++ ['\n'])) :: splitLinesAux [] rest := by
  induction ds with
  | nil => intro acc rest; simp [splitLinesAux]
  | cons d ds ih =>
    intro acc rest
    have hall : ds.all (· != '\n') = true := by
      simp only [List.all_cons, Bool.and_eq_true] at h
      exact h.2
    have hd : ¬(d = '\n') := by
      simp only [List.all_cons, Bool.and_eq_true] at h
      simpa using h.1
    have step : splitLinesAux acc (((d :: ds) ++ ['\n']) ++ rest) =
        splitLinesAux (d :: acc) ((ds ++ ['\n']) ++ rest) := by
      simp [splitLinesAux, hd]
    rw [step, ih hall (d :: acc) rest]
    simp

theorem splitLinesAux_last : ∀ (ds : List Char), ds.all (· != '\n') = true → ds ≠ [] →
    ∀ acc : List Char, splitLinesAux acc ds = [String.mk (acc.reverse ++ ds)] := by
  intro ds
  induction ds with
  | nil => intro _ hne; cases hne rfl
  | cons d ds ih =>
    intro h _ acc
    have hall : ds.all (· != '\n') = true := by
      simp only [List.all_cons, Bool.and_eq_true] at h
      exact h.2
    have hd : ¬(d = '\n') := by
      simp only [List.all_cons, Bool.and_eq_true] at h
      simpa using h.1
    by_cases hds : ds = []
    · subst hds
      simp [splitLinesAux, hd]
    · have step : splitLinesAux acc (d :: ds) = splitLinesAux (d :: acc) ds := by
        simp [splitLinesAux, hd]
      rw [step, ih hall hds (d :: acc)]
      simp

theorem fullLine_decomp {l : String} (h : fullLine l) :
    ∃ ds, l.toList = ds ++ ['\n'] ∧ ds.all (· != '\n') = true := by
  obtain ⟨h1, h2, h3⟩ := h
  refine ⟨l.toList.dropLast, ?_, h3⟩
  have hsplit := List.dropLast_append_getLast h1
  have hlast : l.toList.getLast h1 = '\n' := by
    have := List.getLast?_eq_getLast l.toList h1
    rw [this] at h2
    exact Option.some.inj h2
  rw [hlast] at hsplit
  exact hsplit.symm

theorem splitLines_join : ∀ (lines : List String), validReadlines lines →
    splitLines (String.join lines) = lines := by
  intro lines
  induction lines with
  | nil => intro _; rfl
  | cons l rest ih =>
    intro hv
    cases rest with
    | nil =>
      have hlast : lastLine l := hv
      obtain ⟨hne, hall⟩ := hlast
      have hjoin : (String.join [l]).toList = l.toList := by
        simp [join_toList]
      unfold splitLines
      rw [hjoin]
      by_cases hl : l.toList.getLast? = some '\n'
      · obtain ⟨ds, hds, hdsall⟩ := fullLine_decomp ⟨hne, hl, hall⟩
        rw [hds]
        have := splitLinesAux_line ds hdsall [] []
        simpa [← hds] using this
      · have hallfull : l.toList.all (· != '\n') = true := by
          have hsplit := List.dropLast_append_getLast hne
          have hlastne : ¬(l.toList.getLast hne = '\n') := by
            intro hcon
            exact hl (by rw [List.getLast?_eq_getLast l.toList hne, hcon])
          rw [← hsplit]
          simp only [List.all_append, Bool.and_eq_true]
          exact ⟨hall, by simpa using hlastne⟩
        have := splitLinesAux_last l.toList hallfull hne []
        simpa using this
    | cons l2 rest2 =>
      obtain ⟨hfull, hv2⟩ := hv
      obtain ⟨ds, hds, hdsall⟩ := fullLine_decomp hfull
      have hjoin : (String.join (l :: l2 :: rest2)).toList =
          l.toList ++ (String.join (l2 :: rest2)).toList := by
        rw [join_toList, join_toList, List.map_cons, List.flatten_cons]
      unfold splitLines
      rw [hjoin, hds, splitLinesAux_line ds hdsall [] _]
      have ihr := ih hv2
      unfold splitLines at ihr
      rw [ihr]
      simp [← hds]

theorem occsTotal_buildFileLines : occsTotal mlx_dep_id buildFileLines = 1 := by decide

theorem occsTotal_frameworksRefLines : occsTotal mlx_dep_id frameworksRefLines = 0 := by decide

theorem occsTotal_depBlockLines : occsTotal mlx_dep_id depBlockLines = 1 := by decide

theorem occsTotal_depSectionLines : occsTotal mlx_dep_id depSectionLines = 1 := by decide

/-! ## Claims -/

/-- C2 (counterexample): the build-file injection has no guard, so a manifest
whose build-file marker line occurs twice receives the three build-file lines
twice; the injection fires again when its marker line recurs, contradicting
"once an injection has fired on its first qualifying line it never fires
again". -/
theorem claim_C2_counterexample :
    patch cexDouble = [bfLineEx] ++ buildFileLines ++ [bfLineEx] ++ buildFileLines ∧
      (patch cexDouble).count bfSigLine = 2 ∧ cexDouble.count bfSigLine = 0 := by
  decide

/-- C2 (amended): per pass, the new-section injection fires at most once; the
build-file injection fires exactly once per line containing its marker; the
frameworks-phase and native-target injections fire at most once per arming,
so their firing counts are bounded by the number of lines containing their
begin markers (the native-target count is exactly the length of its firing
record). -/
theorem claim_C2 :
    (∀ lines : List String, pass2 false lines = lines ∨
        ∃ X Y, lines = X ++ Y ∧ pass2 false lines = X ++ (depSectionLines ++ Y)) ∧
    (∀ (fw nt : Bool) (lines : List String),
        (pass1 fw nt lines).count bfSigLine =
          lines.count bfSigLine +
            lines.countP (fun l => containsSub l beginBuildFileMarker)) ∧
    (∀ (fw nt : Bool) (lines : List String),
        (pass1 fw nt lines).count fwSigLine ≤
          (lines.count fwSigLine + (if fw then 1 else 0)) +
            lines.countP (fun l => containsSub l fwBeginMarker)) ∧
    (∀ (fw nt : Bool) (lines : List String),
        (pass1 fw nt lines).count ntSigLine =
          lines.count ntSigLine + (ntFireIdxs nt lines).length ∧
        (ntFireIdxs nt lines).length ≤
          (if nt then 1 else 0) +
            lines.countP (fun l => containsSub l ntBeginMarker)) :=
  ⟨pass2_once, pass1_count_bfSig, pass1_count_fwSig_le,
    fun fw nt lines => ⟨pass1_count_ntSig fw nt lines, ntFireIdxs_length_le nt lines⟩⟩

/-- C3 (counterexample): a manifest carrying only the frameworks-phase
markers is patched with lines that do not contain the sentinel, so a second
run passes the idempotency guard and inserts the frameworks references
again — the program is not idempotent on every input. -/
theorem claim_C3_counterexample :
    (runProgram ((runProgram cexFwOnly).fileContent)).fileContent ≠
      (runProgram cexFwOnly).fileContent := by
  decide

/-- C3 (amended): a second run returns the document unchanged whenever the
first run's output contains the sentinel identifier (which holds whenever the
guard tripped or any sentinel-bearing injection fired) or the first run left
the document unchanged. -/
theorem claim_C3 (lines : List String)
    (h : containsSub (String.join ((runProgram lines).fileContent)) mlx_dep_id = true ∨
      (runProgram lines).fileContent = lines) :
    (runProgram ((runProgram lines).fileContent)).fileContent =
      (runProgram lines).fileContent := by
  rcases h with h1 | h2
  · generalize hX : (runProgram lines).fileContent = X at h1 ⊢
    simp [runProgram, h1]
  · rw [h2]
    exact h2

theorem claim_C3_witness :
    (runProgram ((runProgram [bfLineEx]).fileContent)).fileContent =
      (runProgram [bfLineEx]).fileContent :=
  claim_C3 [bfLineEx] (Or.inl (by decide))

/-- C4: if the joined document content contains the sentinel identifier, the
run leaves the file content untouched, performs no write, prints the
"already patched" status, and exits 0. -/
theorem claim_C4 (lines : List String)
    (h : containsSub (String.join lines) mlx_dep_id = true) :
    runProgram lines = ⟨lines, false, "Project already patched.", 0⟩ := by
  simp [runProgram, h]

theorem claim_C4_witness :
    runProgram ["x " ++ mlx_dep_id ++ " y\n"] =
      ⟨["x " ++ mlx_dep_id ++ " y\n"], false, "Project already patched.", 0⟩ :=
  claim_C4 ["x " ++ mlx_dep_id ++ " y\n"] (by decide)

/-- C6 (counterexample): on a manifest whose native target block closes
(`\x7d;` line) before any `productType = ` line, the sub-block is inserted
after a `productType = ` line that lies outside the block, because the script
never disarms the flag at the block's closing delimiter: the firing index 2
is not inside the native target block in the spec's sense, yet the sub-block
is appended there. -/
theorem claim_C6_counterexample :
    ntFireIdxs false cexNtEscape = [2] ∧
      insideNativeTargetBlock cexNtEscape 2 = false ∧
      pass1 false false cexNtEscape =
        [ntLineEx, closeLineEx, ptLineEx] ++ depBlockLines := by
  decide

/-- C6 (amended): the dependency sub-block is inserted exactly after the
lines recorded by `ntFireIdxs` (its count of insertions matches), and every
such line contains the `productType = ` marker and is preceded, at or before
its index, by a line containing the native-target begin marker — but it need
not lie within the block, as the closing delimiter is never tracked. -/
theorem claim_C6 :
    (∀ (fw nt : Bool) (lines : List String),
        (pass1 fw nt lines).count ntSigLine =
          lines.count ntSigLine + (ntFireIdxs nt lines).length) ∧
    (∀ (lines : List String) (j : Nat), j ∈ ntFireIdxs false lines →
        (∃ l, lines[j]? = some l ∧ containsSub l productTypeMarker = true) ∧
        (∃ i, i ≤ j ∧ ∃ m, lines[i]? = some m ∧
          containsSub m ntBeginMarker = true)) := by
  refine ⟨pass1_count_ntSig, ?_⟩
  intro lines j hj
  obtain ⟨h1, h2⟩ := ntFireIdxs_mem lines false j hj
  exact ⟨h1, h2.resolve_left (by simp)⟩

theorem claim_C6_witness :
    2 ∈ ntFireIdxs false cexNtEscape ∧
      ((∃ l, cexNtEscape[2]? = some l ∧ containsSub l productTypeMarker = true) ∧
        (∃ i, i ≤ 2 ∧ ∃ m, cexNtEscape[i]? = some m ∧
          containsSub m ntBeginMarker = true)) :=
  ⟨by decide, claim_C6.2 cexNtEscape 2 (by decide)⟩

/-- C7: the second pass leaves a sequence without the project-section marker
unchanged, and on a sequence whose first marker-bearing line is `m` it
inserts the new section exactly once, immediately before `m`, leaving the
remainder (even if the marker recurs there) untouched. -/
theorem claim_C7 :
    (∀ lines : List String,
        (∀ l ∈ lines, containsSub l beginProjectMarker = false) →
        pass2 false lines = lines) ∧
    (∀ (X : List String) (m : String) (Y : List String),
        (∀ l ∈ X, containsSub l beginProjectMarker = false) →
        containsSub m beginProjectMarker = true →
        pass2 false (X ++ m :: Y) = X ++ (depSectionLines ++ m :: Y)) := by
  constructor
  · intro lines h
    exact pass2_id h false
  · intro X m Y hX hm
    rw [pass2_skip_append hX, pass2_fire hm]

theorem claim_C7_witness :
    pass2 false ([closeLineEx] ++ prjLineEx :: [prjLineEx]) =
      [closeLineEx] ++ (depSectionLines ++ prjLineEx :: [prjLineEx]) :=
  claim_C7.2 [closeLineEx] prjLineEx [prjLineEx] (by decide) (by decide)

/-- C9: when the guard does not trip, the mutation is insertion-only — the
input lines form a sublist of the output (every original line appears
verbatim, in order, none modified or deleted), and the output length is the
input length plus the number of synthesized lines. -/
theorem claim_C9 (lines : List String)
    (h : containsSub (String.join lines) mlx_dep_id = false) :
    lines.Sublist ((runProgram lines).fileContent) ∧
      ((runProgram lines).fileContent).length =
        lines.length + (((runProgram lines).fileContent).length - lines.length) := by
  have hfc : (runProgram lines).fileContent = patch lines := by
    simp [runProgram, h]
  rw [hfc]
  have hs : lines.Sublist (patch lines) :=
    (pass1_sublist false false lines).trans (pass2_sublist false _)
  exact ⟨hs, by have := hs.length_le; omega⟩

theorem claim_C9_witness :
    [fwLineEx].Sublist ((runProgram [fwLineEx]).fileContent) ∧
      ((runProgram [fwLineEx]).fileContent).length =
        [fwLineEx].length +
          (((runProgram [fwLineEx]).fileContent).length - [fwLineEx].length) :=
  claim_C9 [fwLineEx] (by decide)

/-- C10: the run is a function of the file's byte content alone — for any two
line lists that `readlines` could produce, byte-identical joined content
forces identical `RunResult`s (same written content, same status line, same
exit code).  This holds because `splitLines` (the `readlines` model) inverts
`String.join` on such lists. -/
theorem claim_C10 (a b : List String) (ha : validReadlines a)
    (hb : validReadlines b) (h : String.join a = String.join b) :
    runProgram a = runProgram b := by
  have hab : a = b := by
    have h1 := splitLines_join a ha
    have h2 := splitLines_join b hb
    rw [← h1, ← h2, h]
  rw [hab]

theorem claim_C10_witness :
    runProgram ["line\n", "x"] = runProgram ["line\n", "x"] :=
  claim_C10 ["line\n", "x"] ["line\n", "x"] (by decide) (by decide) rfl

/-- C5: on a manifest with all four markers exactly once each (in manifest
order, the frameworks begin marker before its `files = (` line and the
native-target begin marker before its `productType = ` line) and no sentinel,
the run's output is exactly the input with the 3 build-file lines after the
build-file marker, the 3 reference lines after the `files = (` line, the
dependency sub-block after the `productType = ` line, and the new section
immediately before the project-section marker — and no other change. -/
theorem claim_C5
    (A B C D E F G : List String) (lbf lfw lfl lnt lpt lprj : String)
    (hA : ∀ l ∈ A, neutAll l) (hB : ∀ l ∈ B, neutAll l) (hC : ∀ l ∈ C, neutAll l)
    (hD : ∀ l ∈ D, neutAll l) (hE : ∀ l ∈ E, neutAll l) (hF : ∀ l ∈ F, neutAll l)
    (hG : ∀ l ∈ G, neut1 l)
    (hbf : onlyBfLine lbf) (hfw : onlyFwLine lfw) (hfl : onlyFilesLine lfl)
    (hnt : onlyNtLine lnt) (hpt : onlyPtLine lpt) (hprj : onlyPrjLine lprj)
    (hguard : containsSub (String.join
      (A ++ lbf :: (B ++ lfw :: (C ++ lfl :: (D ++ lnt :: (E ++ lpt :: (F ++ lprj :: G)))))))
      mlx_dep_id = false) :
    (runProgram
      (A ++ lbf :: (B ++ lfw :: (C ++ lfl :: (D ++ lnt :: (E ++ lpt :: (F ++ lprj :: G))))))).fileContent =
      A ++ lbf :: (buildFileLines ++ (B ++ lfw :: (C ++ lfl :: (frameworksRefLines ++
        (D ++ lnt :: (E ++ lpt :: (depBlockLines ++ (F ++ (depSectionLines ++ lprj :: G))))))))) := by
  have hrun : (runProgram
      (A ++ lbf :: (B ++ lfw :: (C ++ lfl :: (D ++ lnt :: (E ++ lpt :: (F ++ lprj :: G))))))).fileContent =
      patch (A ++ lbf :: (B ++ lfw :: (C ++ lfl :: (D ++ lnt :: (E ++ lpt :: (F ++ lprj :: G)))))) := by
    simp [runProgram, hguard]
  rw [hrun]
  exact patch_wellFormed A B C D E F G lbf lfw lfl lnt lpt lprj
    hA hB hC hD hE hF hG hbf hfw hfl hnt hpt hprj

theorem claim_C5_witness :
    (runProgram ([] ++ bfLineEx :: ([] ++ fwLineEx :: ([] ++ filesLineEx ::
      ([] ++ ntLineEx :: ([] ++ ptLineEx :: ([] ++ prjLineEx :: []))))))).fileContent =
      [] ++ bfLineEx :: (buildFileLines ++ ([] ++ fwLineEx :: ([] ++ filesLineEx ::
        (frameworksRefLines ++ ([] ++ ntLineEx :: ([] ++ ptLineEx ::
          (depBlockLines ++ ([] ++ (depSectionLines ++ prjLineEx :: []))))))))) :=
  claim_C5 [] [] [] [] [] [] [] bfLineEx fwLineEx filesLineEx ntLineEx ptLineEx prjLineEx
    (by decide) (by decide) (by decide) (by decide) (by decide) (by decide) (by decide)
    (by decide) (by decide) (by decide) (by decide) (by decide) (by decide)
    (by decide)

/-- C1 (counterexample): on the minimal well-formed manifest the patched
document contains the sentinel identifier exactly 3 times, not 4: the
frameworks-phase reference lines carry the build-file identifiers, not the
product-dependency identifier. -/
theorem claim_C1_counterexample :
    occs mlx_dep_id (String.join ((runProgram cexWf).fileContent)) = 3 ∧
      occs mlx_dep_id (String.join ((runProgram cexWf).fileContent)) ≠ 4 := by
  decide

/-- C1 (amended): for a manifest with all four markers exactly once each and
no sentinel occurrence, the output contains the sentinel identifier exactly
3 times — once in the build-file declaration, once in the target
dependency-list reference, once in the new section's sub-record; the
frameworks-phase reference line references the build-file identifier instead
(counting per line, which equals the document count as no line and no
identifier contains an interior newline). -/
theorem claim_C1
    (A B C D E F G : List String) (lbf lfw lfl lnt lpt lprj : String)
    (hA : ∀ l ∈ A, neutAll l) (hB : ∀ l ∈ B, neutAll l) (hC : ∀ l ∈ C, neutAll l)
    (hD : ∀ l ∈ D, neutAll l) (hE : ∀ l ∈ E, neutAll l) (hF : ∀ l ∈ F, neutAll l)
    (hG : ∀ l ∈ G, neut1 l)
    (hbf : onlyBfLine lbf) (hfw : onlyFwLine lfw) (hfl : onlyFilesLine lfl)
    (hnt : onlyNtLine lnt) (hpt : onlyPtLine lpt) (hprj : onlyPrjLine lprj)
    (hsent : ∀ l ∈ A ++ lbf :: (B ++ lfw :: (C ++ lfl :: (D ++ lnt :: (E ++ lpt :: (F ++ lprj :: G))))),
      occs mlx_dep_id l = 0)
    (hguard : containsSub (String.join
      (A ++ lbf :: (B ++ lfw :: (C ++ lfl :: (D ++ lnt :: (E ++ lpt :: (F ++ lprj :: G)))))))
      mlx_dep_id = false) :
    occsTotal mlx_dep_id
      ((runProgram
        (A ++ lbf :: (B ++ lfw :: (C ++ lfl :: (D ++ lnt :: (E ++ lpt :: (F ++ lprj :: G))))))).fileContent) = 3 := by
  have hrun : (runProgram
      (A ++ lbf :: (B ++ lfw :: (C ++ lfl :: (D ++ lnt :: (E ++ lpt :: (F ++ lprj :: G))))))).fileContent =
      patch (A ++ lbf :: (B ++ lfw :: (C ++ lfl :: (D ++ lnt :: (E ++ lpt :: (F ++ lprj :: G)))))) := by
    simp [runProgram, hguard]
  rw [hrun, patch_wellFormed A B C D E F G lbf lfw lfl lnt lpt lprj
    hA hB hC hD hE hF hG hbf hfw hfl hnt hpt hprj]
  have hsA : ∀ l ∈ A, occs mlx_dep_id l = 0 := fun l hl => hsent l (by simp [hl])
  have hsB : ∀ l ∈ B, occs mlx_dep_id l = 0 := fun l hl => hsent l (by simp [hl])
  have hsC : ∀ l ∈ C, occs mlx_dep_id l = 0 := fun l hl => hsent l (by simp [hl])
  have hsD : ∀ l ∈ D, occs mlx_dep_id l = 0 := fun l hl => hsent l (by simp [hl])
  have hsE : ∀ l ∈ E, occs mlx_dep_id l = 0 := fun l hl => hsent l (by simp [hl])
  have hsF : ∀ l ∈ F, occs mlx_dep_id l = 0 := fun l hl => hsent l (by simp [hl])
  have hsG : ∀ l ∈ G, occs mlx_dep_id l = 0 := fun l hl => hsent l (by simp [hl])
  have hsbf : occs mlx_dep_id lbf = 0 := hsent lbf (by simp)
  have hsfw : occs mlx_dep_id lfw = 0 := hsent lfw (by simp)
  have hsfl : occs mlx_dep_id lfl = 0 := hsent lfl (by simp)
  have hsnt : occs mlx_dep_id lnt = 0 := hsent lnt (by simp)
  have hspt : occs mlx_dep_id lpt = 0 := hsent lpt (by simp)
  have hsprj : occs mlx_dep_id lprj = 0 := hsent lprj (by simp)
  simp only [occsTotal_append, occsTotal_cons,
    occsTotal_zero hsA, occsTotal_zero hsB, occsTotal_zero hsC, occsTotal_zero hsD,
    occsTotal_zero hsE, occsTotal_zero hsF, occsTotal_zero hsG,
    hsbf, hsfw, hsfl, hsnt, hspt, hsprj,
    occsTotal_buildFileLines, occsTotal_frameworksRefLines, occsTotal_depBlockLines,
    occsTotal_depSectionLines]

theorem claim_C1_witness :
    occsTotal mlx_dep_id
      ((runProgram ([] ++ bfLineEx :: ([] ++ fwLineEx :: ([] ++ filesLineEx ::
        ([] ++ ntLineEx :: ([] ++ ptLineEx :: ([] ++ prjLineEx :: []))))))).fileContent) = 3 :=
  claim_C1 [] [] [] [] [] [] [] bfLineEx fwLineEx filesLineEx ntLineEx ptLineEx prjLineEx
    (by decide) (by decide) (by decide) (by decide) (by decide) (by decide) (by decide)
    (by decide) (by decide) (by decide) (by decide) (by decide) (by decide)
    (by decide) (by decide)

/-- C8: on a manifest missing exactly one of the four markers (the other
three present, in manifest order), the mutation — total by construction, so
it cannot raise — performs exactly the three injections whose markers are
present, and the absent injection contributes no lines: each conjunct gives
the exact output for one missing marker (for the frameworks and
native-target cases even when the secondary `files = (` or `productType = `
line is still present). -/
theorem claim_C8 :
    (∀ (A C D E F G : List String) (lfw lfl lnt lpt lprj : String),
      (∀ l ∈ A, neutAll l) → (∀ l ∈ C, neutAll l) → (∀ l ∈ D, neutAll l) →
      (∀ l ∈ E, neutAll l) → (∀ l ∈ F, neutAll l) → (∀ l ∈ G, neut1 l) →
      onlyFwLine lfw → onlyFilesLine lfl → onlyNtLine lnt → onlyPtLine lpt →
      onlyPrjLine lprj →
      patch (A ++ lfw :: (C ++ lfl :: (D ++ lnt :: (E ++ lpt :: (F ++ lprj :: G))))) =
        A ++ lfw :: (C ++ lfl :: (frameworksRefLines ++ (D ++ lnt :: (E ++ lpt ::
          (depBlockLines ++ (F ++ (depSectionLines ++ lprj :: G)))))))) ∧
    (∀ (A B D E F G : List String) (lbf lfl lnt lpt lprj : String),
      (∀ l ∈ A, neutAll l) → (∀ l ∈ B, neutAll l) → (∀ l ∈ D, neutAll l) →
      (∀ l ∈ E, neutAll l) → (∀ l ∈ F, neutAll l) → (∀ l ∈ G, neut1 l) →
      onlyBfLine lbf → onlyFilesLine lfl → onlyNtLine lnt → onlyPtLine lpt →
      onlyPrjLine lprj →
      patch (A ++ lbf :: (B ++ lfl :: (D ++ lnt :: (E ++ lpt :: (F ++ lprj :: G))))) =
        A ++ lbf :: (buildFileLines ++ (B ++ lfl :: (D ++ lnt :: (E ++ lpt ::
          (depBlockLines ++ (F ++ (depSectionLines ++ lprj :: G)))))))) ∧
    (∀ (A B C D F G : List String) (lbf lfw lfl lpt lprj : String),
      (∀ l ∈ A, neutAll l) → (∀ l ∈ B, neutAll l) → (∀ l ∈ C, neutAll l) →
      (∀ l ∈ D, neutAll l) → (∀ l ∈ F, neutAll l) → (∀ l ∈ G, neut1 l) →
      onlyBfLine lbf → onlyFwLine lfw → onlyFilesLine lfl → onlyPtLine lpt →
      onlyPrjLine lprj →
      patch (A ++ lbf :: (B ++ lfw :: (C ++ lfl :: (D ++ lpt :: (F ++ lprj :: G))))) =
        A ++ lbf :: (buildFileLines ++ (B ++ lfw :: (C ++ lfl :: (frameworksRefLines ++
          (D ++ lpt :: (F ++ (depSectionLines ++ lprj :: G)))))))) ∧
    (∀ (A B C D E F : List String) (lbf lfw lfl lnt lpt : String),
      (∀ l ∈ A, neutAll l) → (∀ l ∈ B, neutAll l) → (∀ l ∈ C, neutAll l) →
      (∀ l ∈ D, neutAll l) → (∀ l ∈ E, neutAll l) → (∀ l ∈ F, neutAll l) →
      onlyBfLine lbf → onlyFwLine lfw → onlyFilesLine lfl → onlyNtLine lnt →
      onlyPtLine lpt →
      patch (A ++ lbf :: (B ++ lfw :: (C ++ lfl :: (D ++ lnt :: (E ++ lpt :: F))))) =
        A ++ lbf :: (buildFileLines ++ (B ++ lfw :: (C ++ lfl :: (frameworksRefLines ++
          (D ++ lnt :: (E ++ lpt :: (depBlockLines ++ F)))))))) :=
  ⟨patch_missingBf, patch_missingFw, patch_missingNt, patch_missingPrj⟩

theorem claim_C8_witness :
    (patch ([] ++ fwLineEx :: ([] ++ filesLineEx :: ([] ++ ntLineEx ::
        ([] ++ ptLineEx :: ([] ++ prjLineEx :: []))))) =
      [] ++ fwLineEx :: ([] ++ filesLineEx :: (frameworksRefLines ++ ([] ++ ntLineEx ::
        ([] ++ ptLineEx :: (depBlockLines ++ ([] ++ (depSectionLines ++ prjLineEx :: [])))))))) ∧
    (patch ([] ++ bfLineEx :: ([] ++ filesLineEx :: ([] ++ ntLineEx ::
        ([] ++ ptLineEx :: ([] ++ prjLineEx :: []))))) =
      [] ++ bfLineEx :: (buildFileLines ++ ([] ++ filesLineEx :: ([] ++ ntLineEx ::
        ([] ++ ptLineEx :: (depBlockLines ++ ([] ++ (depSectionLines ++ prjLineEx :: [])))))))) ∧
    (patch ([] ++ bfLineEx :: ([] ++ fwLineEx :: ([] ++ filesLineEx ::
        ([] ++ ptLineEx :: ([] ++ prjLineEx :: []))))) =
      [] ++ bfLineEx :: (buildFileLines ++ ([] ++ fwLineEx :: ([] ++ filesLineEx ::
        (frameworksRefLines ++ ([] ++ ptLineEx :: ([] ++ (depSectionLines ++ prjLineEx :: [])))))))) ∧
    (patch ([] ++ bfLineEx :: ([] ++ fwLineEx :: ([] ++ filesLineEx ::
        ([] ++ ntLineEx :: ([] ++ ptLineEx :: []))))) =
      [] ++ bfLineEx :: (buildFileLines ++ ([] ++ fwLineEx :: ([] ++ filesLineEx ::
        (frameworksRefLines ++ ([] ++ ntLineEx :: ([] ++ ptLineEx :: (depBlockLines ++ [])))))))) :=
  ⟨claim_C8.1 [] [] [] [] [] [] fwLineEx filesLineEx ntLineEx ptLineEx prjLineEx
      (by decide) (by decide) (by decide) (by decide) (by decide) (by decide)
      (by decide) (by decide) (by decide) (by decide) (by decide),
    claim_C8.2.1 [] [] [] [] [] [] bfLineEx filesLineEx ntLineEx ptLineEx prjLineEx
      (by decide) (by decide) (by decide) (by decide) (by decide) (by decide)
      (by decide) (by decide) (by decide) (by decide) (by decide),
    claim_C8.2.2.1 [] [] [] [] [] [] bfLineEx fwLineEx filesLineEx ptLineEx prjLineEx
      (by decide) (by decide) (by decide) (by decide) (by decide) (by decide)
      (by decide) (by decide) (by decide) (by decide) (by decide),
    claim_C8.2.2.2 [] [] [] [] [] [] bfLineEx fwLineEx filesLineEx ntLineEx ptLineEx
      (by decide) (by decide) (by decide) (by decide) (by decide) (by decide)
      (by decide) (by decide) (by decide) (by decide) (by decide)⟩

end FixProject
